import Mathlib

/-
Verification of the training-loop orchestrator in
src/utils/training/image_classification.py.

Shallow embedding conventions:
  * losses and accuracies are rationals (the Python floats are only added,
    divided once, and compared here);
  * a model (together with its gradients and optimizer state) is an abstract
    state of type mu, mutated explicitly through the Machine operations that
    mirror the collaborator calls in the source (zero_grad, forward,
    criterion, backward, optimizer.step); the model.train()/model.eval()
    mode toggle is a flag outside the parameter state and is not modelled;
  * each epoch function also returns a trace of the collaborator operations
    it performed, one entry per source line that touches the model or the
    optimizer, so that frame conditions are expressible;
  * the checkpoint directory is a pair of optional artifacts (model file,
    metrics file), read at the start of train_test_loop and rewritten each
    epoch, exactly as the source does with model.pt and metrics.pkl;
  * the per-epoch print and plot calls are recorded as ghost lists
    (executed epochs, plotted epochs) in the loop state.
-/

namespace ImgClass

/-- Operations performed on the model/optimizer collaborators by one epoch
function, one constructor per relevant call site in the source. -/
inductive Op : Type where
  | zeroGradOp : Op
  | forwardOp : Op
  | lossOp : Op
  | backwardOp : Op
  | optStepOp : Op
deriving DecidableEq, Repr

/-- Standard batch, the tuple (input tensor, label tensor) of the source;
labels are class indices, one per sample. -/
structure Batch (alpha : Type) where
  x : alpha
  y : List Nat
deriving DecidableEq

/-- Coordinate-aware batch, the tuple (input, coordinates, mask, labels). -/
structure CoordBatch (alpha gamma delta : Type) where
  x : alpha
  coords : gamma
  mask : delta
  y : List Nat
deriving DecidableEq

/-- The model/optimizer/criterion collaborators of the standard strategy.
State mu bundles model parameters, gradients and optimizer state; forward
returns one score vector per sample of the batch. -/
structure Machine (mu alpha : Type) where
  zeroGrad : mu → mu
  forward : mu → alpha → List (List ℚ)
  criterion : List (List ℚ) → List Nat → ℚ
  backward : mu → alpha → List Nat → mu
  optStep : mu → mu

/-- The collaborators of the coordinate-aware strategy: forward and backward
additionally receive the coordinates and the mask. -/
structure CoordMachine (mu alpha gamma delta : Type) where
  zeroGrad : mu → mu
  forward : mu → alpha → gamma → delta → List (List ℚ)
  criterion : List (List ℚ) → List Nat → ℚ
  backward : mu → alpha → gamma → delta → List Nat → mu
  optStep : mu → mu

/-- Index of the first maximal entry of a score vector, the embedding of
out.argmax(dim=-1) for one sample. -/
def argmaxIdx : List ℚ → Nat
  | [] => 0
  | a :: rest =>
      let j := argmaxIdx rest
      match rest.get? j with
      | none => 0
      | some b => if a < b then j + 1 else 0

/-- Number of samples whose argmax prediction equals the label, the
embedding of out.argmax(dim=-1).eq(y).sum().item(). -/
def correctCount (out : List (List ℚ)) (y : List Nat) : Nat :=
  (List.zipWith (fun s l => argmaxIdx s == l) out y).count true

/-- Accumulator of one loader traversal: the threaded machine state plus the
correct/total_loss/total counters of the source, plus the operation trace. -/
structure EpochAcc (mu : Type) where
  model : mu
  correct : Nat
  total_loss : ℚ
  total : Nat
  trace : List Op
deriving DecidableEq

/-- Result of one epoch function: final machine state, reported loss and
accuracy, and the operation trace. -/
structure EpochOut (mu : Type) where
  model : mu
  loss : ℚ
  acc : ℚ
  trace : List Op
deriving DecidableEq

/-- Body of the train_epoch loop for one standard batch (source lines
19-30): zero_grad, forward, criterion, accumulate, backward, step. -/
def trainBatchStep (mc : Machine mu alpha) (s : EpochAcc mu) (b : Batch alpha) :
    EpochAcc mu :=
  let m1 := mc.zeroGrad s.model
  let out := mc.forward m1 b.x
  let loss := mc.criterion out b.y
  let m2 := mc.backward m1 b.x b.y
  let m3 := mc.optStep m2
  ⟨m3, s.correct + correctCount out b.y, s.total_loss + loss,
    s.total + b.y.length,
    s.trace ++ [Op.zeroGradOp, Op.forwardOp, Op.lossOp, Op.backwardOp, Op.optStepOp]⟩

/-- Shared tail of every epoch function (source lines 32-38): the total==0
sentinel, the optional single division of the loss, and accuracy
correct/total. -/
def epochFinish (s : EpochAcc mu) (normalise_loss : Bool) : EpochOut mu :=
  if s.total = 0 then ⟨s.model, 0, 1, s.trace⟩
  else
    ⟨s.model,
      if normalise_loss then s.total_loss / (s.total : ℚ) else s.total_loss,
      (s.correct : ℚ) / (s.total : ℚ),
      s.trace⟩

/-- Embedding of train_epoch (source lines 14-38). -/
def train_epoch (mc : Machine mu alpha) (m : mu) (loader : List (Batch alpha))
    (normalise_loss : Bool) : EpochOut mu :=
  epochFinish (loader.foldl (trainBatchStep mc) ⟨m, 0, 0, 0, []⟩) normalise_loss

/-- Body of the train_epoch_coordvit loop for one coordinate-aware batch
(source lines 45-56). -/
def coordTrainBatchStep (cm : CoordMachine mu alpha gamma delta)
    (s : EpochAcc mu) (b : CoordBatch alpha gamma delta) : EpochAcc mu :=
  let m1 := cm.zeroGrad s.model
  let out := cm.forward m1 b.x b.coords b.mask
  let loss := cm.criterion out b.y
  let m2 := cm.backward m1 b.x b.coords b.mask b.y
  let m3 := cm.optStep m2
  ⟨m3, s.correct + correctCount out b.y, s.total_loss + loss,
    s.total + b.y.length,
    s.trace ++ [Op.zeroGradOp, Op.forwardOp, Op.lossOp, Op.backwardOp, Op.optStepOp]⟩

/-- Embedding of train_epoch_coordvit (source lines 40-64). -/
def train_epoch_coordvit (cm : CoordMachine mu alpha gamma delta) (m : mu)
    (loader : List (CoordBatch alpha gamma delta)) (normalise_loss : Bool) :
    EpochOut mu :=
  epochFinish (loader.foldl (coordTrainBatchStep cm) ⟨m, 0, 0, 0, []⟩) normalise_loss

/-- Body of the eval loop for one standard batch (source lines 70-75):
forward and criterion only; the machine state is threaded unchanged because
no source line in the loop mutates it. -/
def evalBatchStep (mc : Machine mu alpha) (s : EpochAcc mu) (b : Batch alpha) :
    EpochAcc mu :=
  let out := mc.forward s.model b.x
  let loss := mc.criterion out b.y
  ⟨s.model, s.correct + correctCount out b.y, s.total_loss + loss,
    s.total + b.y.length, s.trace ++ [Op.forwardOp, Op.lossOp]⟩

/-- Embedding of eval (source lines 66-81). -/
def eval (mc : Machine mu alpha) (m : mu) (loader : List (Batch alpha))
    (normalise_loss : Bool) : EpochOut mu :=
  epochFinish (loader.foldl (evalBatchStep mc) ⟨m, 0, 0, 0, []⟩) normalise_loss

/-- Body of the eval_coordvit loop for one batch (source lines 87-92). -/
def coordEvalBatchStep (cm : CoordMachine mu alpha gamma delta)
    (s : EpochAcc mu) (b : CoordBatch alpha gamma delta) : EpochAcc mu :=
  let out := cm.forward s.model b.x b.coords b.mask
  let loss := cm.criterion out b.y
  ⟨s.model, s.correct + correctCount out b.y, s.total_loss + loss,
    s.total + b.y.length, s.trace ++ [Op.forwardOp, Op.lossOp]⟩

/-- Embedding of eval_coordvit (source lines 83-98). -/
def eval_coordvit (cm : CoordMachine mu alpha gamma delta) (m : mu)
    (loader : List (CoordBatch alpha gamma delta)) (normalise_loss : Bool) :
    EpochOut mu :=
  epochFinish (loader.foldl (coordEvalBatchStep cm) ⟨m, 0, 0, 0, []⟩) normalise_loss

/-- Total sample count of a loader traversal, the sum of the len(y) of its
batches. -/
def loaderTotal (loader : List (Batch alpha)) : Nat :=
  (loader.map (fun b => b.y.length)).sum

/-- Total sample count of a coordinate-aware loader. -/
def coordLoaderTotal (loader : List (CoordBatch alpha gamma delta)) : Nat :=
  (loader.map (fun b => b.y.length)).sum

/-- Per-batch (loss, correct, size) triples observed by a train_epoch
traversal, with the machine state evolving between batches exactly as in
trainBatchStep. -/
def trainBatchTriples (mc : Machine mu alpha) :
    mu → List (Batch alpha) → List (ℚ × Nat × Nat)
  | _, [] => []
  | m, b :: rest =>
      let m1 := mc.zeroGrad m
      let out := mc.forward m1 b.x
      (mc.criterion out b.y, correctCount out b.y, b.y.length) ::
        trainBatchTriples mc (mc.optStep (mc.backward m1 b.x b.y)) rest

/-- Machine state after a full train_epoch traversal. -/
def trainModelAfter (mc : Machine mu alpha) : mu → List (Batch alpha) → mu
  | m, [] => m
  | m, b :: rest =>
      trainModelAfter mc (mc.optStep (mc.backward (mc.zeroGrad m) b.x b.y)) rest

/-- Per-batch (loss, correct, size) triples observed by an eval traversal;
the machine state is constant. -/
def evalBatchTriples (mc : Machine mu alpha) (m : mu)
    (loader : List (Batch alpha)) : List (ℚ × Nat × Nat) :=
  loader.map (fun b =>
    (mc.criterion (mc.forward m b.x) b.y, correctCount (mc.forward m b.x) b.y,
      b.y.length))

/-- Summed batch losses of a triple list. -/
def sumLoss (t : List (ℚ × Nat × Nat)) : ℚ := (t.map (fun p => p.1)).sum

/-- Summed correct counts of a triple list. -/
def sumCorrect (t : List (ℚ × Nat × Nat)) : Nat := (t.map (fun p => p.2.1)).sum

/-- Summed sample counts of a triple list. -/
def sumCount (t : List (ℚ × Nat × Nat)) : Nat := (t.map (fun p => p.2.2)).sum

/-- Operations that only read the model: the forward pass and the loss
computation. -/
def passiveOp : Op → Bool
  | Op.forwardOp => true
  | Op.lossOp => true
  | _ => false

/-- Contents of the checkpoint location, the two artifacts the source keeps
at save_path: model.pt (a state_dict of type pi) and metrics.pkl (the pickled
tuple (train_accs, test_accs, train_losses, test_losses)). -/
structure FS (pi : Type) where
  modelFile : Option pi
  metricsFile : Option (List ℚ × List ℚ × List ℚ × List ℚ)
deriving DecidableEq

/-- Fixed collaborators of one train_test_loop run: the injected
train_epoch_fn and eval_fn with optimizer, criterion, loaders and the
normalise_loss flag already applied, the optional lr_scheduler step, and
state_dict/load_state_dict for checkpointing.  trainFn returns the mutated
machine state and (train_loss, train_acc); evalFn returns
(test_loss, test_acc) on the test loader and mutates nothing. -/
structure TTConfig (mu pi : Type) where
  trainFn : mu → mu × ℚ × ℚ
  evalFn : mu → ℚ × ℚ
  sched : Option (Nat → ℚ → mu → mu)
  stateDict : mu → pi
  loadStateDict : mu → pi → mu

/-- State of a train_test_loop run: machine state, the four histories, the
checkpoint contents on disk, plus ghost records of the per-epoch print
(executed) and the plot calls (plotted). -/
structure TTState (mu pi : Type) where
  model : mu
  train_accs : List ℚ
  test_accs : List ℚ
  train_losses : List ℚ
  test_losses : List ℚ
  fs : FS pi
  executed : List Nat
  plotted : List Nat
deriving DecidableEq

/-- One iteration of the train_test_loop body (source lines 121-153):
train epoch, eval on test, optional scheduler step, print, append to the
four histories, rewrite both checkpoint artifacts when persistence is
configured, render the two plots when requested. -/
def ttEpoch (c : TTConfig mu pi) (save plot : Bool) (s : TTState mu pi)
    (i : Nat) : TTState mu pi :=
  let tr := c.trainFn s.model
  let m1 := tr.1
  let train_loss := tr.2.1
  let train_acc := tr.2.2
  let te := c.evalFn m1
  let m2 := match c.sched with
    | some f => f i train_loss m1
    | none => m1
  let ta := s.train_accs ++ [train_acc]
  let tea := s.test_accs ++ [te.2]
  let tl := s.train_losses ++ [train_loss]
  let tel := s.test_losses ++ [te.1]
  ⟨m2, ta, tea, tl, tel,
    if save then ⟨some (c.stateDict m2), some (ta, tea, tl, tel)⟩ else s.fs,
    s.executed ++ [i],
    if plot then s.plotted ++ [i] else s.plotted⟩

/-- Resume step of train_test_loop (source lines 109-118): fresh histories,
then, when a checkpoint location is configured, load whichever of the two
artifacts is present, independently of one another. -/
def ttStart (c : TTConfig mu pi) (m0 : mu) (save : Bool) (fs0 : FS pi) :
    TTState mu pi :=
  if save then
    ⟨(match fs0.modelFile with
       | some p => c.loadStateDict m0 p
       | none => m0),
      (match fs0.metricsFile with | some q => q.1 | none => []),
      (match fs0.metricsFile with | some q => q.2.1 | none => []),
      (match fs0.metricsFile with | some q => q.2.2.1 | none => []),
      (match fs0.metricsFile with | some q => q.2.2.2 | none => []),
      fs0, [], []⟩
  else ⟨m0, [], [], [], [], fs0, [], []⟩

/-- The loop of train_test_loop after the assert: resume, then iterate the
epoch body for i in range(1+len(train_accs), num_epochs+1). -/
def ttRun (c : TTConfig mu pi) (m0 : mu) (num_epochs : Nat) (save : Bool)
    (fs0 : FS pi) (plot : Bool) : TTState mu pi :=
  let s0 := ttStart c m0 save fs0
  (List.range' (1 + s0.train_accs.length) (num_epochs - s0.train_accs.length)).foldl
    (ttEpoch c save plot) s0

/-- The one error train_test_loop can raise itself: the AssertionError of
line 107, plotting requested without a save path. -/
inductive TTErr : Type where
  | plotWithoutSave : TTErr
deriving DecidableEq

/-- Embedding of train_test_loop (source lines 100-155): the assert
(save_path is not None or plot == False) guards everything, then the run
proceeds.  save stands for save_path being configured and fs0 for the
contents of that location. -/
def train_test_loop (c : TTConfig mu pi) (m0 : mu) (num_epochs : Nat)
    (save : Bool) (fs0 : FS pi) (plot : Bool) :
    Except TTErr (TTState mu pi) :=
  if plot = true ∧ save = false then Except.error TTErr.plotWithoutSave
  else Except.ok (ttRun c m0 num_epochs save fs0 plot)

/-- Fixed collaborators of one train_eval_test_loop run; evalFn is the one
injected eval_fn, applied to the val loader and the test loader of type ell;
patience models the early_stopping float parameter, none standing for its
default of positive infinity. -/
structure TVTConfig (mu ell : Type) where
  trainFn : mu → mu × ℚ × ℚ
  evalFn : mu → ell → ℚ × ℚ
  valLoader : ell
  testLoader : ell
  sched : Option (Nat → ℚ → mu → mu)
  patience : Option Nat

/-- The stall-counter test num_not_max >= early_stopping of source line 168;
a patience of none is float infinity, never reached. -/
def stallReached (patience : Option Nat) (stall : Nat) : Bool :=
  match patience with
  | none => false
  | some t => t ≤ stall

/-- The comparison val_acc > max_val_acc of source line 177, with none
standing for the initial max_val_acc of float negative infinity. -/
def optLT (best : Option ℚ) (v : ℚ) : Bool :=
  match best with
  | none => true
  | some b => decide (b < v)

/-- State of a train_eval_test_loop run: machine state, six histories, the
early-stopping pair (max_val_acc as an Option, num_not_max), a ghost record
of executed epochs and the Early-stopping print flag. -/
structure TVTState (mu : Type) where
  model : mu
  train_accs : List ℚ
  val_accs : List ℚ
  test_accs : List ℚ
  train_losses : List ℚ
  val_losses : List ℚ
  test_losses : List ℚ
  max_val_acc : Option ℚ
  num_not_max : Nat
  executed : List Nat
  stoppedEarly : Bool
deriving DecidableEq

/-- One iteration of the train_eval_test_loop body after the stall check
(source lines 172-205): train, eval on val, eval on test, update the
early-stopping pair with a strict comparison, optional scheduler step,
print, append to the six histories. -/
def tvtEpoch (c : TVTConfig mu ell) (s : TVTState mu) (i : Nat) :
    TVTState mu :=
  let tr := c.trainFn s.model
  let m1 := tr.1
  let train_loss := tr.2.1
  let train_acc := tr.2.2
  let v := c.evalFn m1 c.valLoader
  let t := c.evalFn m1 c.testLoader
  let improved := optLT s.max_val_acc v.2
  let m2 := match c.sched with
    | some f => f i train_loss m1
    | none => m1
  ⟨m2,
    s.train_accs ++ [train_acc], s.val_accs ++ [v.2], s.test_accs ++ [t.2],
    s.train_losses ++ [train_loss], s.val_losses ++ [v.1],
    s.test_losses ++ [t.1],
    if improved then some v.2 else s.max_val_acc,
    if improved then 0 else s.num_not_max + 1,
    s.executed ++ [i], s.stoppedEarly⟩

/-- The loop for i in range(1+len(train_accs), num_epochs+1) of source line
167, iterating over the remaining indices of the range, with the
early-stopping break of lines 168-170 at the top of each iteration. -/
def tvtLoop (c : TVTConfig mu ell) : TVTState mu → List Nat → TVTState mu
  | s, [] => s
  | s, i :: rest =>
      if stallReached c.patience s.num_not_max then
        { s with stoppedEarly := true }
      else tvtLoop c (tvtEpoch c s i) rest

/-- Initial state of train_eval_test_loop (source lines 163-166): empty
histories, max_val_acc = -inf, num_not_max = 0. -/
def tvtInit (m0 : mu) : TVTState mu :=
  ⟨m0, [], [], [], [], [], [], none, 0, [], false⟩

/-- Full internal run of train_eval_test_loop: the train_accs history starts
empty, so the range starts at 1 and has num_epochs indices. -/
def tvtRun (c : TVTConfig mu ell) (m0 : mu) (num_epochs : Nat) :
    TVTState mu :=
  tvtLoop c (tvtInit m0) (List.range' 1 num_epochs)

/-- The dictionary returned by train_eval_test_loop (source lines 207-214):
exactly the six histories. -/
structure TVTResult where
  train_accs : List ℚ
  val_accs : List ℚ
  test_accs : List ℚ
  train_losses : List ℚ
  val_losses : List ℚ
  test_losses : List ℚ
deriving DecidableEq

/-- Embedding of train_eval_test_loop (source lines 157-214). -/
def train_eval_test_loop (c : TVTConfig mu ell) (m0 : mu)
    (num_epochs : Nat) : TVTResult :=
  let s := tvtRun c m0 num_epochs
  ⟨s.train_accs, s.val_accs, s.test_accs, s.train_losses, s.val_losses,
    s.test_losses⟩

/-- One update of the early-stopping pair by a new validation accuracy,
exactly the if/else of source lines 177-183. -/
def esStep (p : Option ℚ × Nat) (v : ℚ) : Option ℚ × Nat :=
  if optLT p.1 v then (some v, 0) else (p.1, p.2 + 1)

/-- The early-stopping pair reached after a sequence of validation
accuracies, from the initial (-inf, 0). -/
def esRun (vals : List ℚ) : Option ℚ × Nat :=
  vals.foldl esStep (none, 0)

/-- Projection of a coordinate-aware batch to a standard batch: same input,
same labels, coordinates and mask dropped. -/
def projBatch (b : CoordBatch alpha gamma delta) : Batch alpha :=
  ⟨b.x, b.y⟩

/-- Operation trace of a training traversal over n batches. -/
def trainTraceN : Nat → List Op
  | 0 => []
  | n + 1 =>
      [Op.zeroGradOp, Op.forwardOp, Op.lossOp, Op.backwardOp, Op.optStepOp] ++
        trainTraceN n

/-- Operation trace of an eval traversal over n batches. -/
def evalTraceN : Nat → List Op
  | 0 => []
  | n + 1 => [Op.forwardOp, Op.lossOp] ++ evalTraceN n

/-- Concrete machine for the synthetic example of spec section 8: state and
scores are irrelevant, the criterion reports batch loss 3/2 for the
three-sample batch and 2 for the five-sample batch. -/
def exM : Machine Unit Nat :=
  ⟨id, fun _ _ => [], fun _ y => if y.length = 3 then 3 / 2 else 2,
    fun m _ _ => m, id⟩

/-- The fixed synthetic two-batch loader of spec section 8: batch sizes 3
and 5. -/
def exLoader : List (Batch Nat) := [⟨3, [0, 0, 0]⟩, ⟨5, [0, 0, 0, 0, 0]⟩]

/-- A loader whose single batch carries zero samples. -/
def emptyBatchLoader : List (Batch Nat) := [⟨7, []⟩]

/-- Concrete standard machine for the strategy-equivalence instance. -/
def smW : Machine Nat Nat :=
  ⟨fun m => m, fun _ _ => [], fun _ _ => 1, fun m _ _ => m + 1, fun m => m⟩

/-- Concrete coordinate-aware machine that ignores coordinates and mask and
otherwise agrees with smW. -/
def cmW : CoordMachine Nat Nat Unit Unit :=
  ⟨fun m => m, fun _ _ _ _ => [], fun _ _ => 1, fun m _ _ _ _ => m + 1,
    fun m => m⟩

/-- Concrete coordinate-aware loader whose coordinates and mask are
trivial. -/
def cloaderW : List (CoordBatch Nat Unit Unit) := [⟨0, (), (), [0]⟩]

/-- Validation-accuracy schedule 0.5, 0.6, 0.6, 0.6, ... indexed by the
number of completed training epochs. -/
def valSched (m : Nat) : ℚ := if m ≤ 1 then 1 / 2 else 3 / 5

/-- Concrete train_eval_test_loop collaborators realising the schedule of
valSched with patience 2: the machine state counts completed train epochs
and the val loader is the boolean true. -/
def esC : TVTConfig Nat Bool :=
  ⟨fun m => (m + 1, 0, 0), fun m l => if l then (0, valSched m) else (0, 0),
    true, false, none, some 2⟩

/-- A mid-run state whose stall counter 5 already exceeds the patience 2 of
esC. -/
def esStallState : TVTState Nat :=
  ⟨0, [], [], [], [], [], [], some (1 / 2), 5, [], false⟩

/-- Concrete train_test_loop collaborators over Nat machine state and Nat
checkpoint blobs. -/
def cexC : TTConfig Nat Nat :=
  ⟨fun m => (m + 1, 1, 1), fun _ => (2, 3), none, id, fun _ p => p⟩

/-- A checkpoint location holding only the model artifact. -/
def fsOnlyModel : FS Nat := ⟨some 5, none⟩

/-- A checkpoint location holding only the metrics artifact, with one
persisted epoch. -/
def fsOnlyMetrics : FS Nat :=
  ⟨none, some ([1 / 2], [1 / 2], [1 / 2], [1 / 2])⟩

/-- A checkpoint location holding both artifacts with two persisted
epochs. -/
def fsFull2 : FS Nat := ⟨some 5, some ([1, 2], [3, 4], [5, 6], [7, 8])⟩

lemma trainFold_eq (mc : Machine mu alpha) (l : List (Batch alpha)) :
    ∀ s : EpochAcc mu,
      l.foldl (trainBatchStep mc) s =
        ⟨trainModelAfter mc s.model l,
          s.correct + sumCorrect (trainBatchTriples mc s.model l),
          s.total_loss + sumLoss (trainBatchTriples mc s.model l),
          s.total + sumCount (trainBatchTriples mc s.model l),
          s.trace ++ trainTraceN l.length⟩ := by
  induction l with
  | nil =>
      intro s
      simp [trainBatchTriples, trainModelAfter, sumLoss, sumCorrect, sumCount,
        trainTraceN]
  | cons b rest ih =>
      intro s
      rw [List.foldl_cons, ih]
      simp only [trainBatchStep, trainBatchTriples, trainModelAfter,
        trainTraceN, sumLoss, sumCorrect, sumCount, List.map_cons,
        List.sum_cons, List.length_cons, EpochAcc.mk.injEq]
      exact ⟨trivial, by omega, by ring, by omega, by simp⟩

lemma evalFold_eq (mc : Machine mu alpha) (l : List (Batch alpha)) :
    ∀ s : EpochAcc mu,
      l.foldl (evalBatchStep mc) s =
        ⟨s.model,
          s.correct + sumCorrect (evalBatchTriples mc s.model l),
          s.total_loss + sumLoss (evalBatchTriples mc s.model l),
          s.total + sumCount (evalBatchTriples mc s.model l),
          s.trace ++ evalTraceN l.length⟩ := by
  induction l with
  | nil =>
      intro s
      simp [evalBatchTriples, sumLoss, sumCorrect, sumCount, evalTraceN]
  | cons b rest ih =>
      intro s
      rw [List.foldl_cons, ih]
      simp only [evalBatchStep, evalBatchTriples, evalTraceN, sumLoss,
        sumCorrect, sumCount, List.map_cons, List.sum_cons, List.length_cons,
        EpochAcc.mk.injEq]
      exact ⟨trivial, by omega, by ring, by omega, by simp⟩

lemma coordEvalFold_model_trace (cm : CoordMachine mu alpha gamma delta)
    (l : List (CoordBatch alpha gamma delta)) :
    ∀ s : EpochAcc mu,
      (l.foldl (coordEvalBatchStep cm) s).model = s.model ∧
        (l.foldl (coordEvalBatchStep cm) s).trace =
          s.trace ++ evalTraceN l.length := by
  induction l with
  | nil => intro s; simp [evalTraceN]
  | cons b rest ih =>
      intro s
      rw [List.foldl_cons]
      rcases ih (coordEvalBatchStep cm s b) with ⟨h1, h2⟩
      refine ⟨h1, ?_⟩
      rw [h2]
      simp [coordEvalBatchStep, evalTraceN]

lemma evalTraceN_all_passive (n : Nat) :
    (evalTraceN n).all passiveOp = true := by
  induction n with
  | zero => rfl
  | succ k ih => simp [evalTraceN, passiveOp, ih]

lemma sumCount_trainBatchTriples (mc : Machine mu alpha)
    (l : List (Batch alpha)) :
    ∀ m : mu, sumCount (trainBatchTriples mc m l) = loaderTotal l := by
  induction l with
  | nil => intro m; simp [trainBatchTriples, sumCount, loaderTotal]
  | cons b rest ih =>
      intro m
      have h := ih (mc.optStep (mc.backward (mc.zeroGrad m) b.x b.y))
      simp only [trainBatchTriples, sumCount, loaderTotal, List.map_cons,
        List.sum_cons] at h ⊢
      omega

lemma sumCount_evalBatchTriples (mc : Machine mu alpha) (m : mu)
    (l : List (Batch alpha)) :
    sumCount (evalBatchTriples mc m l) = loaderTotal l := by
  simp [evalBatchTriples, sumCount, loaderTotal, Function.comp_def]

lemma epochFinish_model (s : EpochAcc mu) (b : Bool) :
    (epochFinish s b).model = s.model := by
  rw [epochFinish]; split <;> rfl

lemma epochFinish_trace (s : EpochAcc mu) (b : Bool) :
    (epochFinish s b).trace = s.trace := by
  rw [epochFinish]; split <;> rfl

lemma epochFinish_loss_of_ne (s : EpochAcc mu) (b : Bool) (h : s.total ≠ 0) :
    (epochFinish s b).loss =
      if b then s.total_loss / (s.total : ℚ) else s.total_loss := by
  rw [epochFinish, if_neg h]

lemma epochFinish_acc_of_ne (s : EpochAcc mu) (b : Bool) (h : s.total ≠ 0) :
    (epochFinish s b).acc = (s.correct : ℚ) / (s.total : ℚ) := by
  rw [epochFinish, if_neg h]

lemma epochFinish_of_eq (s : EpochAcc mu) (b : Bool) (h : s.total = 0) :
    (epochFinish s b).loss = 0 ∧ (epochFinish s b).acc = 1 := by
  rw [epochFinish, if_pos h]; exact ⟨rfl, rfl⟩

lemma coordTrainStep_eq (sm : Machine mu alpha)
    (cm : CoordMachine mu alpha gamma delta)
    (hz : cm.zeroGrad = sm.zeroGrad)
    (hf : ∀ m x c k, cm.forward m x c k = sm.forward m x)
    (hc : cm.criterion = sm.criterion)
    (hb : ∀ m x c k y, cm.backward m x c k y = sm.backward m x y)
    (ho : cm.optStep = sm.optStep)
    (s : EpochAcc mu) (b : CoordBatch alpha gamma delta) :
    coordTrainBatchStep cm s b = trainBatchStep sm s (projBatch b) := by
  simp [coordTrainBatchStep, trainBatchStep, projBatch, hz, hf, hc, hb, ho]

lemma coordEvalStep_eq (sm : Machine mu alpha)
    (cm : CoordMachine mu alpha gamma delta)
    (hf : ∀ m x c k, cm.forward m x c k = sm.forward m x)
    (hc : cm.criterion = sm.criterion)
    (s : EpochAcc mu) (b : CoordBatch alpha gamma delta) :
    coordEvalBatchStep cm s b = evalBatchStep sm s (projBatch b) := by
  simp [coordEvalBatchStep, evalBatchStep, projBatch, hf, hc]

/-- Claim C3: for every loader traversal with total sample count positive,
epoch aggregation (train and eval alike) reports accuracy = correct/total,
and reports loss = total_loss/total when normalise_loss is true and the raw
batch-summed total_loss when normalise_loss is false, the division applied
exactly once, where total_loss, correct and total are the sums of the
per-batch (loss, correct, size) triples of the traversal. -/
theorem epoch_agg_formula (mc : Machine mu alpha) (m : mu)
    (loader : List (Batch alpha)) (b : Bool) (h : 0 < loaderTotal loader) :
    ((train_epoch mc m loader b).loss =
        if b then
          sumLoss (trainBatchTriples mc m loader) / (loaderTotal loader : ℚ)
        else sumLoss (trainBatchTriples mc m loader)) ∧
    ((train_epoch mc m loader b).acc =
        (sumCorrect (trainBatchTriples mc m loader) : ℚ) /
          (loaderTotal loader : ℚ)) ∧
    ((eval mc m loader b).loss =
        if b then
          sumLoss (evalBatchTriples mc m loader) / (loaderTotal loader : ℚ)
        else sumLoss (evalBatchTriples mc m loader)) ∧
    ((eval mc m loader b).acc =
        (sumCorrect (evalBatchTriples mc m loader) : ℚ) /
          (loaderTotal loader : ℚ)) := by
  have ht := trainFold_eq mc loader ⟨m, 0, 0, 0, []⟩
  have he := evalFold_eq mc loader ⟨m, 0, 0, 0, []⟩
  have hzt : (0 + sumCount (trainBatchTriples mc m loader)) ≠ 0 := by
    have := sumCount_trainBatchTriples mc loader m
    omega
  have hze : (0 + sumCount (evalBatchTriples mc m loader)) ≠ 0 := by
    have := sumCount_evalBatchTriples mc m loader
    omega
  refine ⟨?_, ?_, ?_, ?_⟩
  · rw [train_epoch, ht, epochFinish_loss_of_ne _ _ hzt]
    simp [sumCount_trainBatchTriples]
  · rw [train_epoch, ht, epochFinish_acc_of_ne _ _ hzt]
    simp [sumCount_trainBatchTriples]
  · rw [eval, he, epochFinish_loss_of_ne _ _ hze]
    simp [sumCount_evalBatchTriples]
  · rw [eval, he, epochFinish_acc_of_ne _ _ hze]
    simp [sumCount_evalBatchTriples]

/-- Witness for C3 at the synthetic two-batch loader of spec section 8:
batch sizes 3 and 5, batch losses 3/2 and 2, total 8, raw loss 7/2 and
normalized loss 7/16. -/
theorem epoch_agg_formula_witness :
    0 < loaderTotal exLoader ∧
    (train_epoch exM () exLoader false).loss = 7 / 2 ∧
    (train_epoch exM () exLoader true).loss = 7 / 16 := by
  have h : 0 < loaderTotal exLoader := by norm_num [loaderTotal, exLoader]
  have h1 := epoch_agg_formula exM () exLoader false h
  have h2 := epoch_agg_formula exM () exLoader true h
  refine ⟨h, ?_, ?_⟩
  · rw [h1.1]
    norm_num [trainBatchTriples, sumLoss, exM, exLoader, loaderTotal]
  · rw [h2.1]
    norm_num [trainBatchTriples, sumLoss, exM, exLoader, loaderTotal]

/-- Claim C4: for every loader that yields a total of 0 samples, both train
and eval aggregation return exactly the sentinel loss 0 and accuracy 1,
independent of the normalise_loss flag. -/
theorem epoch_empty_sentinel (mc : Machine mu alpha) (m : mu)
    (loader : List (Batch alpha)) (b : Bool) (h : loaderTotal loader = 0) :
    (train_epoch mc m loader b).loss = 0 ∧
    (train_epoch mc m loader b).acc = 1 ∧
    (eval mc m loader b).loss = 0 ∧
    (eval mc m loader b).acc = 1 := by
  have ht := trainFold_eq mc loader ⟨m, 0, 0, 0, []⟩
  have he := evalFold_eq mc loader ⟨m, 0, 0, 0, []⟩
  have hzt : (0 + sumCount (trainBatchTriples mc m loader)) = 0 := by
    have := sumCount_trainBatchTriples mc loader m
    omega
  have hze : (0 + sumCount (evalBatchTriples mc m loader)) = 0 := by
    have := sumCount_evalBatchTriples mc m loader
    omega
  have h1 := epochFinish_of_eq (EpochAcc.mk (trainModelAfter mc m loader)
    (0 + sumCorrect (trainBatchTriples mc m loader))
    (0 + sumLoss (trainBatchTriples mc m loader))
    (0 + sumCount (trainBatchTriples mc m loader))
    ([] ++ trainTraceN loader.length)) b hzt
  have h2 := epochFinish_of_eq (EpochAcc.mk m
    (0 + sumCorrect (evalBatchTriples mc m loader))
    (0 + sumLoss (evalBatchTriples mc m loader))
    (0 + sumCount (evalBatchTriples mc m loader))
    ([] ++ evalTraceN loader.length)) b hze
  rw [train_epoch, ht, eval, he]
  exact ⟨h1.1, h1.2, h2.1, h2.2⟩

/-- Witness for C4 at a loader made of one zero-sample batch. -/
theorem epoch_empty_sentinel_witness :
    loaderTotal emptyBatchLoader = 0 ∧
    (train_epoch exM () emptyBatchLoader true).loss = 0 ∧
    (train_epoch exM () emptyBatchLoader true).acc = 1 ∧
    (eval exM () emptyBatchLoader false).loss = 0 ∧
    (eval exM () emptyBatchLoader false).acc = 1 := by
  have h : loaderTotal emptyBatchLoader = 0 := by
    norm_num [loaderTotal, emptyBatchLoader]
  have h1 := epoch_empty_sentinel exM () emptyBatchLoader true h
  have h2 := epoch_empty_sentinel exM () emptyBatchLoader false h
  exact ⟨h, h1.1, h1.2.1, h2.2.2.1, h2.2.2.2⟩

/-- Claim C9: the eval aggregation functions perform only forward passes
and loss computations: their operation traces contain no gradient, no
optimizer and no zero-grad operation, and the machine state they return is
the one they were given, for every machine, loader and flag. -/
theorem eval_frame_effect (mc : Machine mu alpha)
    (cm : CoordMachine mu alpha gamma delta) (m : mu)
    (loader : List (Batch alpha))
    (cloader : List (CoordBatch alpha gamma delta)) (b b' : Bool) :
    (eval mc m loader b).model = m ∧
    (eval mc m loader b).trace.all passiveOp = true ∧
    (eval_coordvit cm m cloader b').model = m ∧
    (eval_coordvit cm m cloader b').trace.all passiveOp = true := by
  have he := evalFold_eq mc loader ⟨m, 0, 0, 0, []⟩
  have hc := coordEvalFold_model_trace cm cloader ⟨m, 0, 0, 0, []⟩
  refine ⟨?_, ?_, ?_, ?_⟩
  · rw [eval, epochFinish_model, he]
  · rw [eval, epochFinish_trace, he]
    simp [evalTraceN_all_passive]
  · rw [eval_coordvit, epochFinish_model, hc.1]
  · rw [eval_coordvit, epochFinish_trace, hc.2]
    simp [evalTraceN_all_passive]

/-- Claim C7: when the coordinate-aware machine ignores its coordinates and
mask arguments (agreeing with a standard machine on every call) and the
coordinate-aware loader carries the same inputs and labels, the
coordinate-aware strategy and the standard strategy produce identical
results, in training and in eval alike. -/
theorem strategy_equivalence (sm : Machine mu alpha)
    (cm : CoordMachine mu alpha gamma delta) (m : mu)
    (cloader : List (CoordBatch alpha gamma delta)) (b : Bool)
    (hz : cm.zeroGrad = sm.zeroGrad)
    (hf : ∀ m x c k, cm.forward m x c k = sm.forward m x)
    (hc : cm.criterion = sm.criterion)
    (hb : ∀ m x c k y, cm.backward m x c k y = sm.backward m x y)
    (ho : cm.optStep = sm.optStep) :
    train_epoch_coordvit cm m cloader b =
      train_epoch sm m (cloader.map projBatch) b ∧
    eval_coordvit cm m cloader b = eval sm m (cloader.map projBatch) b := by
  have hstep : ∀ (s : EpochAcc mu) (cb : CoordBatch alpha gamma delta),
      coordTrainBatchStep cm s cb = trainBatchStep sm s (projBatch cb) :=
    coordTrainStep_eq sm cm hz hf hc hb ho
  have hestep : ∀ (s : EpochAcc mu) (cb : CoordBatch alpha gamma delta),
      coordEvalBatchStep cm s cb = evalBatchStep sm s (projBatch cb) :=
    coordEvalStep_eq sm cm hf hc
  have hfun : coordTrainBatchStep cm =
      fun s cb => trainBatchStep sm s (projBatch cb) :=
    funext fun s => funext fun cb => hstep s cb
  have hefun : coordEvalBatchStep cm =
      fun s cb => evalBatchStep sm s (projBatch cb) :=
    funext fun s => funext fun cb => hestep s cb
  constructor
  · rw [train_epoch_coordvit, train_epoch, List.foldl_map, hfun]
  · rw [eval_coordvit, eval, List.foldl_map, hefun]

/-- Witness for C7 at a concrete pair of machines agreeing once coordinates
and mask are dropped, over a one-batch coordinate-aware loader. -/
theorem strategy_equivalence_witness :
    train_epoch_coordvit cmW 0 cloaderW true =
      train_epoch smW 0 (cloaderW.map projBatch) true ∧
    eval_coordvit cmW 0 cloaderW true = eval smW 0 (cloaderW.map projBatch) true :=
  strategy_equivalence smW cmW 0 cloaderW true rfl (fun _ _ _ _ => rfl) rfl
    (fun _ _ _ _ _ => rfl) rfl

lemma ttFold_executed (c : TTConfig mu pi) (save plot : Bool) (l : List Nat) :
    ∀ s : TTState mu pi,
      (l.foldl (ttEpoch c save plot) s).executed = s.executed ++ l := by
  induction l with
  | nil => intro s; simp
  | cons i rest ih =>
      intro s
      rw [List.foldl_cons, ih]
      simp [ttEpoch]

lemma ttFold_hist (c : TTConfig mu pi) (save plot : Bool) (l : List Nat) :
    ∀ s : TTState mu pi, ∃ ea eb ec ed : List ℚ,
      ea.length = l.length ∧ eb.length = l.length ∧
      ec.length = l.length ∧ ed.length = l.length ∧
      (l.foldl (ttEpoch c save plot) s).train_accs = s.train_accs ++ ea ∧
      (l.foldl (ttEpoch c save plot) s).test_accs = s.test_accs ++ eb ∧
      (l.foldl (ttEpoch c save plot) s).train_losses = s.train_losses ++ ec ∧
      (l.foldl (ttEpoch c save plot) s).test_losses = s.test_losses ++ ed := by
  induction l with
  | nil =>
      intro s
      exact ⟨[], [], [], [], rfl, rfl, rfl, rfl, by simp, by simp, by simp,
        by simp⟩
  | cons i rest ih =>
      intro s
      obtain ⟨ea, eb, ec, ed, h1, h2, h3, h4, h5, h6, h7, h8⟩ :=
        ih (ttEpoch c save plot s i)
      rw [List.foldl_cons]
      refine ⟨(c.trainFn s.model).2.2 :: ea,
        (c.evalFn (c.trainFn s.model).1).2 :: eb,
        (c.trainFn s.model).2.1 :: ec,
        (c.evalFn (c.trainFn s.model).1).1 :: ed,
        by simp [h1], by simp [h2], by simp [h3], by simp [h4],
        ?_, ?_, ?_, ?_⟩
      · rw [h5]; simp [ttEpoch]
      · rw [h6]; simp [ttEpoch]
      · rw [h7]; simp [ttEpoch]
      · rw [h8]; simp [ttEpoch]

lemma ttFold_fs (c : TTConfig mu pi) (plot : Bool) :
    ∀ (l : List Nat) (s : TTState mu pi), l ≠ [] →
      (l.foldl (ttEpoch c true plot) s).fs =
        ⟨some (c.stateDict (l.foldl (ttEpoch c true plot) s).model),
          some ((l.foldl (ttEpoch c true plot) s).train_accs,
            (l.foldl (ttEpoch c true plot) s).test_accs,
            (l.foldl (ttEpoch c true plot) s).train_losses,
            (l.foldl (ttEpoch c true plot) s).test_losses)⟩ := by
  intro l
  induction l with
  | nil => intro s h; exact absurd rfl h
  | cons i rest ih =>
      intro s _
      rw [List.foldl_cons]
      cases rest with
      | nil => rfl
      | cons j rest2 => exact ih (ttEpoch c true plot s i) (by simp)

/-- Claim C8: train_test_loop raises its configuration error exactly when
plotting is requested without a persistence location, and the error is
raised before the loop: in every other configuration the run proceeds
normally. -/
theorem tt_plot_requires_save (c : TTConfig mu pi) (m0 : mu) (n : Nat)
    (fs0 : FS pi) (save plot : Bool) :
    (train_test_loop c m0 n save fs0 plot =
        Except.error TTErr.plotWithoutSave ↔ plot = true ∧ save = false) ∧
    (¬(plot = true ∧ save = false) →
      train_test_loop c m0 n save fs0 plot =
        Except.ok (ttRun c m0 n save fs0 plot)) := by
  constructor
  · constructor
    · intro h
      by_contra hn
      rw [train_test_loop, if_neg hn] at h
      exact absurd h (by simp)
    · intro h
      rw [train_test_loop, if_pos h]
  · intro h
    rw [train_test_loop, if_neg h]

/-- Witness for C8: with plotting on and no save path the error is raised;
with a save path configured the same run returns normally. -/
theorem tt_plot_requires_save_witness :
    train_test_loop cexC 0 1 false fsOnlyModel true =
      Except.error TTErr.plotWithoutSave ∧
    train_test_loop cexC 0 1 true fsOnlyModel false =
      Except.ok (ttRun cexC 0 1 true fsOnlyModel false) := by
  have h1 := tt_plot_requires_save cexC 0 1 fsOnlyModel false true
  have h2 := tt_plot_requires_save cexC 0 1 fsOnlyModel true false
  exact ⟨h1.1.mpr ⟨rfl, rfl⟩, h2.2 (by simp)⟩

/-- Counterexample to claim C5 as stated: with the checkpoint location
holding only the model artifact and not the metric history, train_test_loop
does not fail fast with any error: it returns normally and runs both
epochs. -/
theorem tt_one_artifact_no_error_cex :
    train_test_loop cexC 0 2 true fsOnlyModel false =
      Except.ok (ttRun cexC 0 2 true fsOnlyModel false) ∧
    (ttRun cexC 0 2 true fsOnlyModel false).executed = [1, 2] := by
  constructor
  · norm_num [train_test_loop]
  · norm_num [ttRun, ttStart, ttEpoch, cexC, fsOnlyModel, List.range']

/-- Amended C5: when exactly one checkpoint artifact is present,
train_test_loop raises no error and silently loads the present artifact:
model-only resumes with the loaded parameters and empty histories, running
epochs 1..num_epochs; metrics-only resumes with fresh parameters and the
loaded histories, running epochs len+1..num_epochs. -/
theorem tt_one_artifact_loads_present (c : TTConfig mu pi) (m0 : mu)
    (n : Nat) (p : pi) (q : List ℚ × List ℚ × List ℚ × List ℚ) :
    (train_test_loop c m0 n true ⟨some p, none⟩ false =
        Except.ok (ttRun c m0 n true ⟨some p, none⟩ false)) ∧
    (ttRun c m0 n true ⟨some p, none⟩ false =
        (List.range' 1 n).foldl (ttEpoch c true false)
          ⟨c.loadStateDict m0 p, [], [], [], [], ⟨some p, none⟩, [], []⟩) ∧
    ((ttRun c m0 n true ⟨some p, none⟩ false).executed = List.range' 1 n) ∧
    (train_test_loop c m0 n true ⟨none, some q⟩ false =
        Except.ok (ttRun c m0 n true ⟨none, some q⟩ false)) ∧
    (ttRun c m0 n true ⟨none, some q⟩ false =
        (List.range' (1 + q.1.length) (n - q.1.length)).foldl
          (ttEpoch c true false)
          ⟨m0, q.1, q.2.1, q.2.2.1, q.2.2.2, ⟨none, some q⟩, [], []⟩) ∧
    ((ttRun c m0 n true ⟨none, some q⟩ false).executed =
        List.range' (1 + q.1.length) (n - q.1.length)) := by
  refine ⟨?_, rfl, ?_, ?_, rfl, ?_⟩
  · rw [train_test_loop, if_neg (by simp)]
  · show ((List.range' 1 n).foldl (ttEpoch c true false)
      (ttStart c m0 true ⟨some p, none⟩)).executed = List.range' 1 n
    rw [ttFold_executed]
    rfl
  · rw [train_test_loop, if_neg (by simp)]
  · show ((List.range' (1 + q.1.length) (n - q.1.length)).foldl
      (ttEpoch c true false) (ttStart c m0 true ⟨none, some q⟩)).executed =
      List.range' (1 + q.1.length) (n - q.1.length)
    rw [ttFold_executed]
    rfl

/-- Claim C10: when the loaded metric history already covers num_epochs,
train_test_loop executes zero epochs: no epoch print, no plot call, the
checkpoint location is left untouched, the four histories are returned
exactly as loaded, and the model is exactly the loaded one. -/
theorem tt_skip_when_history_full (c : TTConfig mu pi) (m0 : mu) (n : Nat)
    (fs0 : FS pi) (q : List ℚ × List ℚ × List ℚ × List ℚ) (plot : Bool)
    (h1 : fs0.metricsFile = some q) (h2 : n ≤ q.1.length) :
    train_test_loop c m0 n true fs0 plot =
      Except.ok (ttRun c m0 n true fs0 plot) ∧
    (ttRun c m0 n true fs0 plot).executed = [] ∧
    (ttRun c m0 n true fs0 plot).plotted = [] ∧
    (ttRun c m0 n true fs0 plot).fs = fs0 ∧
    (ttRun c m0 n true fs0 plot).train_accs = q.1 ∧
    (ttRun c m0 n true fs0 plot).test_accs = q.2.1 ∧
    (ttRun c m0 n true fs0 plot).train_losses = q.2.2.1 ∧
    (ttRun c m0 n true fs0 plot).test_losses = q.2.2.2 ∧
    (ttRun c m0 n true fs0 plot).model =
      (match fs0.modelFile with
        | some p => c.loadStateDict m0 p
        | none => m0) := by
  have hs : (ttStart c m0 true fs0).train_accs = q.1 := by
    rw [ttStart]
    simp [h1]
  have hrun : ttRun c m0 n true fs0 plot = ttStart c m0 true fs0 := by
    rw [ttRun]
    have h0 : n - (ttStart c m0 true fs0).train_accs.length = 0 := by
      rw [hs]; omega
    rw [h0]
    rfl
  refine ⟨?_, ?_, ?_, ?_, ?_, ?_, ?_, ?_, ?_⟩
  · rw [train_test_loop, if_neg (by simp)]
  · rw [hrun, ttStart]; simp
  · rw [hrun, ttStart]; simp
  · rw [hrun, ttStart]; simp
  · rw [hrun, hs]
  · rw [hrun, ttStart]; simp [h1]
  · rw [hrun, ttStart]; simp [h1]
  · rw [hrun, ttStart]; simp [h1]
  · rw [hrun, ttStart]; simp

/-- Witness for C10 at a checkpoint holding two persisted epochs and a
request for two total epochs, with plotting on. -/
theorem tt_skip_when_history_full_witness :
    (2 : Nat) ≤
      ((([1, 2], [3, 4], [5, 6], [7, 8]) :
        List ℚ × List ℚ × List ℚ × List ℚ)).1.length ∧
    (ttRun cexC 0 2 true fsFull2 true).executed = [] ∧
    (ttRun cexC 0 2 true fsFull2 true).plotted = [] ∧
    (ttRun cexC 0 2 true fsFull2 true).fs = fsFull2 := by
  have h := tt_skip_when_history_full cexC 0 2 fsFull2
    ([1, 2], [3, 4], [5, 6], [7, 8]) true rfl (by norm_num)
  exact ⟨by norm_num, h.2.1, h.2.2.1, h.2.2.2.1⟩

lemma tvtEpoch_es (c : TVTConfig mu ell) (s : TVTState mu) (i : Nat) :
    ((tvtEpoch c s i).max_val_acc, (tvtEpoch c s i).num_not_max) =
      esStep (s.max_val_acc, s.num_not_max)
        (c.evalFn (c.trainFn s.model).1 c.valLoader).2 := by
  by_cases h :
    optLT s.max_val_acc (c.evalFn (c.trainFn s.model).1 c.valLoader).2 = true
  · simp [tvtEpoch, esStep, h]
  · simp [tvtEpoch, esStep, h]

lemma tvtEpoch_val_accs (c : TVTConfig mu ell) (s : TVTState mu) (i : Nat) :
    (tvtEpoch c s i).val_accs =
      s.val_accs ++ [(c.evalFn (c.trainFn s.model).1 c.valLoader).2] := rfl

lemma esRun_append_one (l : List ℚ) (v : ℚ) :
    esRun (l ++ [v]) = esStep (esRun l) v := by
  simp [esRun, List.foldl_append]

lemma tvtLoop_inv (c : TVTConfig mu ell) :
    ∀ (l : List Nat) (s : TVTState mu),
      (esRun s.val_accs = (s.max_val_acc, s.num_not_max) ∧
        s.train_accs.length = s.executed.length ∧
        s.val_accs.length = s.executed.length ∧
        s.test_accs.length = s.executed.length ∧
        s.train_losses.length = s.executed.length ∧
        s.val_losses.length = s.executed.length ∧
        s.test_losses.length = s.executed.length) →
      (esRun (tvtLoop c s l).val_accs =
          ((tvtLoop c s l).max_val_acc, (tvtLoop c s l).num_not_max) ∧
        (tvtLoop c s l).train_accs.length = (tvtLoop c s l).executed.length ∧
        (tvtLoop c s l).val_accs.length = (tvtLoop c s l).executed.length ∧
        (tvtLoop c s l).test_accs.length = (tvtLoop c s l).executed.length ∧
        (tvtLoop c s l).train_losses.length =
          (tvtLoop c s l).executed.length ∧
        (tvtLoop c s l).val_losses.length = (tvtLoop c s l).executed.length ∧
        (tvtLoop c s l).test_losses.length =
          (tvtLoop c s l).executed.length) := by
  intro l
  induction l with
  | nil => intro s h; exact h
  | cons i rest ih =>
      intro s h
      by_cases hs : stallReached c.patience s.num_not_max = true
      · rw [tvtLoop, if_pos hs]
        exact h
      · rw [tvtLoop, if_neg hs]
        apply ih
        obtain ⟨h0, h1, h2, h3, h4, h5, h6⟩ := h
        refine ⟨?_, ?_, ?_, ?_, ?_, ?_, ?_⟩
        · rw [tvtEpoch_val_accs, esRun_append_one, h0, tvtEpoch_es]
        · simp [tvtEpoch, h1]
        · simp [tvtEpoch, h2]
        · simp [tvtEpoch, h3]
        · simp [tvtEpoch, h4]
        · simp [tvtEpoch, h5]
        · simp [tvtEpoch, h6]

/-- Claim C2: in the early-stopping loop, for every epoch the stall counter
is compared against the patience before any work and the loop terminates at
once, without running the epoch, when it has reached the patience; a new
validation accuracy updates best and resets the counter exactly when it is
strictly greater than the best so far, and otherwise, ties included,
increments the counter; consequently, for validation accuracies 0.5, 0.6,
0.6, 0.6 with patience 2, stopping occurs exactly after the 4th value and
the final best is 0.6 with stall counter 2. -/
theorem tvt_early_stopping_spec :
    (∀ (nu xi : Type) (c : TVTConfig nu xi) (s : TVTState nu) (i : Nat)
        (rest : List Nat),
        stallReached c.patience s.num_not_max = true →
        tvtLoop c s (i :: rest) = { s with stoppedEarly := true }) ∧
    (∀ (nu xi : Type) (c : TVTConfig nu xi) (s : TVTState nu) (i : Nat),
        (optLT s.max_val_acc
            (c.evalFn (c.trainFn s.model).1 c.valLoader).2 = true →
          (tvtEpoch c s i).max_val_acc =
            some (c.evalFn (c.trainFn s.model).1 c.valLoader).2 ∧
          (tvtEpoch c s i).num_not_max = 0) ∧
        (optLT s.max_val_acc
            (c.evalFn (c.trainFn s.model).1 c.valLoader).2 = false →
          (tvtEpoch c s i).max_val_acc = s.max_val_acc ∧
          (tvtEpoch c s i).num_not_max = s.num_not_max + 1)) ∧
    (∀ b v : ℚ, optLT (some b) v = decide (b < v)) ∧
    ((tvtRun esC 0 10).executed = [1, 2, 3, 4] ∧
      (tvtRun esC 0 10).stoppedEarly = true ∧
      (tvtRun esC 0 10).max_val_acc = some (3 / 5) ∧
      (tvtRun esC 0 10).num_not_max = 2 ∧
      (tvtRun esC 0 4).stoppedEarly = false ∧
      (tvtRun esC 0 3).num_not_max = 1) := by
  refine ⟨?_, ?_, ?_, ?_⟩
  · intro nu xi c s i rest h
    rw [tvtLoop, if_pos h]
  · intro nu xi c s i
    constructor
    · intro h
      exact ⟨by simp [tvtEpoch, h], by simp [tvtEpoch, h]⟩
    · intro h
      exact ⟨by simp [tvtEpoch, h], by simp [tvtEpoch, h]⟩
  · intro b v
    rfl
  · refine ⟨?_, ?_, ?_, ?_, ?_, ?_⟩ <;>
      norm_num [tvtRun, tvtLoop, tvtEpoch, tvtInit, esC, stallReached, optLT,
        valSched, List.range']

/-- Witness for C2: the immediate-termination part applied at a concrete
state whose stall counter 5 has already reached the patience 2 of esC. -/
theorem tvt_early_stopping_spec_witness :
    tvtLoop esC esStallState [1, 2, 3] =
      { esStallState with stoppedEarly := true } := by
  have h := tvt_early_stopping_spec
  exact h.1 Nat Bool esC esStallState 1 [2, 3]
    (by norm_num [stallReached, esC, esStallState])

/-- Claim C6: train_eval_test_loop returns the six histories for every run;
whether the run stopped early or completed, the returned record has the
same shape, all six histories having one entry per executed epoch; and the
final best value and stall count of the early-stopping state are exposed by
the result in that replaying the returned validation accuracies through the
early-stopping update recovers them exactly. -/
theorem tvt_result_histories_and_es (c : TVTConfig mu ell) (m0 : mu)
    (n : Nat) :
    (train_eval_test_loop c m0 n).train_accs = (tvtRun c m0 n).train_accs ∧
    (train_eval_test_loop c m0 n).val_accs = (tvtRun c m0 n).val_accs ∧
    (train_eval_test_loop c m0 n).test_accs = (tvtRun c m0 n).test_accs ∧
    (train_eval_test_loop c m0 n).train_losses =
      (tvtRun c m0 n).train_losses ∧
    (train_eval_test_loop c m0 n).val_losses = (tvtRun c m0 n).val_losses ∧
    (train_eval_test_loop c m0 n).test_losses = (tvtRun c m0 n).test_losses ∧
    (train_eval_test_loop c m0 n).train_accs.length =
      (tvtRun c m0 n).executed.length ∧
    (train_eval_test_loop c m0 n).val_accs.length =
      (tvtRun c m0 n).executed.length ∧
    (train_eval_test_loop c m0 n).test_accs.length =
      (tvtRun c m0 n).executed.length ∧
    (train_eval_test_loop c m0 n).train_losses.length =
      (tvtRun c m0 n).executed.length ∧
    (train_eval_test_loop c m0 n).val_losses.length =
      (tvtRun c m0 n).executed.length ∧
    (train_eval_test_loop c m0 n).test_losses.length =
      (tvtRun c m0 n).executed.length ∧
    esRun (train_eval_test_loop c m0 n).val_accs =
      ((tvtRun c m0 n).max_val_acc, (tvtRun c m0 n).num_not_max) := by
  have h := tvtLoop_inv c (List.range' 1 n) (tvtInit m0)
    ⟨rfl, rfl, rfl, rfl, rfl, rfl, rfl⟩
  obtain ⟨h0, h1, h2, h3, h4, h5, h6⟩ := h
  exact ⟨rfl, rfl, rfl, rfl, rfl, rfl, h1, h2, h3, h4, h5, h6, h0⟩

/-- Claim C1: a run with persistence and num_epochs 3 from an empty
checkpoint executes epochs 1-3; a fresh run against the resulting checkpoint
with num_epochs 5 loads both artifacts, resumes numbering at
len(train_history)+1, executes exactly epochs 4 and 5, and returns four
histories of length 5 whose first 3 entries are exactly the first run's
histories, for every collaborator configuration and every pair of initial
machine states. -/
theorem tt_resume_three_then_five (c : TTConfig mu pi) (m0 m0' : mu) :
    (ttRun c m0 3 true ⟨none, none⟩ false).executed = [1, 2, 3] ∧
    train_test_loop c m0' 5 true (ttRun c m0 3 true ⟨none, none⟩ false).fs
        false =
      Except.ok
        (ttRun c m0' 5 true (ttRun c m0 3 true ⟨none, none⟩ false).fs false) ∧
    (ttRun c m0' 5 true (ttRun c m0 3 true ⟨none, none⟩ false).fs
        false).executed = [4, 5] ∧
    (ttRun c m0' 5 true (ttRun c m0 3 true ⟨none, none⟩ false).fs
        false).train_accs.length = 5 ∧
    (ttRun c m0' 5 true (ttRun c m0 3 true ⟨none, none⟩ false).fs
        false).test_accs.length = 5 ∧
    (ttRun c m0' 5 true (ttRun c m0 3 true ⟨none, none⟩ false).fs
        false).train_losses.length = 5 ∧
    (ttRun c m0' 5 true (ttRun c m0 3 true ⟨none, none⟩ false).fs
        false).test_losses.length = 5 ∧
    (ttRun c m0' 5 true (ttRun c m0 3 true ⟨none, none⟩ false).fs
        false).train_accs.take 3 =
      (ttRun c m0 3 true ⟨none, none⟩ false).train_accs ∧
    (ttRun c m0' 5 true (ttRun c m0 3 true ⟨none, none⟩ false).fs
        false).test_accs.take 3 =
      (ttRun c m0 3 true ⟨none, none⟩ false).test_accs ∧
    (ttRun c m0' 5 true (ttRun c m0 3 true ⟨none, none⟩ false).fs
        false).train_losses.take 3 =
      (ttRun c m0 3 true ⟨none, none⟩ false).train_losses ∧
    (ttRun c m0' 5 true (ttRun c m0 3 true ⟨none, none⟩ false).fs
        false).test_losses.take 3 =
      (ttRun c m0 3 true ⟨none, none⟩ false).test_losses := by
  have hr1 : ttRun c m0 3 true ⟨none, none⟩ false =
      ([1, 2, 3] : List Nat).foldl (ttEpoch c true false)
        ⟨m0, [], [], [], [], ⟨none, none⟩, [], []⟩ := rfl
  obtain ⟨ea, eb, ec, ed, hl1, hl2, hl3, hl4, hta, htea, htl, htel⟩ :=
    ttFold_hist c true false [1, 2, 3]
      ⟨m0, [], [], [], [], ⟨none, none⟩, [], []⟩
  have hfs1 := ttFold_fs c false [1, 2, 3]
    ⟨m0, [], [], [], [], ⟨none, none⟩, [], []⟩ (by simp)
  rw [hr1]
  set F := ([1, 2, 3] : List Nat).foldl (ttEpoch c true false)
    ⟨m0, [], [], [], [], ⟨none, none⟩, [], []⟩ with hFdef
  have hstart : ttStart c m0' true F.fs =
      ⟨c.loadStateDict m0' (c.stateDict F.model), F.train_accs, F.test_accs,
        F.train_losses, F.test_losses, F.fs, [], []⟩ := by
    rw [hfs1]
    rfl
  have hFlen1 : F.train_accs.length = 3 := by rw [hta]; simp [hl1]
  have hFlen2 : F.test_accs.length = 3 := by rw [htea]; simp [hl2]
  have hFlen3 : F.train_losses.length = 3 := by rw [htl]; simp [hl3]
  have hFlen4 : F.test_losses.length = 3 := by rw [htel]; simp [hl4]
  have hlen : (ttStart c m0' true F.fs).train_accs.length = 3 := by
    rw [hstart]; exact hFlen1
  have hr2 : ttRun c m0' 5 true F.fs false =
      ([4, 5] : List Nat).foldl (ttEpoch c true false)
        (ttStart c m0' true F.fs) := by
    simp only [ttRun]
    rw [hlen]
    rfl
  obtain ⟨fa, fb, fc, fd, kl1, kl2, kl3, kl4, kta, ktea, ktl, ktel⟩ :=
    ttFold_hist c true false [4, 5] (ttStart c m0' true F.fs)
  refine ⟨?_, ?_, ?_, ?_, ?_, ?_, ?_, ?_, ?_, ?_, ?_⟩
  · rw [ttFold_executed]; rfl
  · rw [train_test_loop, if_neg (by simp)]
  · rw [hr2, ttFold_executed, hstart]; rfl
  · rw [hr2, kta]; simp [List.length_append, hlen, kl1]
  · rw [hr2, ktea, hstart]; simp [List.length_append, hFlen2, kl2]
  · rw [hr2, ktl, hstart]; simp [List.length_append, hFlen3, kl3]
  · rw [hr2, ktel, hstart]; simp [List.length_append, hFlen4, kl4]
  · rw [hr2, kta, hstart]; exact List.take_left' hFlen1
  · rw [hr2, ktea, hstart]; exact List.take_left' hFlen2
  · rw [hr2, ktl, hstart]; exact List.take_left' hFlen3
  · rw [hr2, ktel, hstart]; exact List.take_left' hFlen4

end ImgClass
